import Mathlib

/-!
Verification development for the rrc-chat-ui repository: a shallow
embedding of the chat client's data model and logic, with theorems
checking the natural-language specification against the code.
-/

namespace RRC

/-! ## Wire types, from the TypeScript declarations (FieldDescriptor, ChatResponse) -/

/-- Embeds the FieldDescriptor interface: name, type, label, optional options. -/
structure FieldDescriptor where
  name : String
  type : String
  label : String
  options : Option (List String)
deriving DecidableEq, Repr

/-- Embeds the response discriminator: "text" | "form" | "end". -/
inductive RespType where
  | text
  | form
  | stop
deriving DecidableEq, Repr

/-- Embeds the ChatResponse interface: the full set of response fields
the server sends and the client consumes. -/
structure ChatResponse where
  session_id : String
  message : String
  type : RespType
  step : String
  field : Option String
  fields : Option (List FieldDescriptor)
  options : Option (List String)
  done : Bool
deriving DecidableEq, Repr

/-- Key names of the ChatResponse interface, in declaration order. -/
def chatResponseKeys : List String :=
  ["session_id", "message", "type", "step", "field", "fields", "options", "done"]

/-- Key names of the FieldDescriptor interface, in declaration order. -/
def fieldDescriptorKeys : List String :=
  ["name", "type", "label", "options"]

/-- Key names the specification lists for the response shape. -/
def specResponseKeys : List String :=
  ["step", "message", "type", "field", "fields", "options", "done"]

/-! ## IdentityForm.formatPhone -/

/-- Digit filter, embedding the regex replace of non-digits with nothing. -/
def digitsOf (s : List Char) : List Char :=
  s.filter (fun c => c.isDigit)

/-- Embeds formatPhone on character lists: strip non-digits, then format
as XXX-XXX-XXXX with the group boundaries of the source. -/
def formatPhoneL (s : List Char) : List Char :=
  if (digitsOf s).length ≤ 3 then digitsOf s
  else if (digitsOf s).length ≤ 6 then
    (digitsOf s).take 3 ++ ['-'] ++ (digitsOf s).drop 3
  else
    (digitsOf s).take 3 ++ ['-'] ++ ((digitsOf s).drop 3).take 3 ++ ['-'] ++
      ((digitsOf s).drop 6).take 4

/-- Embeds the IdentityForm's formatPhone on strings. -/
def formatPhone (s : String) : String :=
  String.mk (formatPhoneL s.data)

/-! ## Static client (the vanilla JS chat script): form submission payloads -/

/-- Embeds the JS String trim method: drop leading and trailing
whitespace. Defined by structural recursion so concrete inputs evaluate. -/
def jsTrim (s : String) : String :=
  String.mk
    (((s.data.dropWhile Char.isWhitespace).reverse.dropWhile
      Char.isWhitespace).reverse)

/-- Character-list core of the JS startsWith method, by structural
recursion so concrete inputs evaluate. -/
def startsWithL : List Char → List Char → Bool
  | _, [] => true
  | [], _ :: _ => false
  | c :: cs, p :: ps => decide (c = p) && startsWithL cs ps

/-- Embeds the JS String startsWith method. -/
def jsStartsWith (s pat : String) : Bool :=
  startsWithL s.data pat.data

/-- JSON values a submitted form payload can hold: a string or an array
of strings, matching what the static client builds. -/
inductive JValue where
  | str (s : String)
  | arr (xs : List String)
deriving DecidableEq

/-- One rendered control inside the static client's multi-field form:
either a checkbox group (with its currently checked option values) or a
value-bearing control (text/number/date input or select), whose value is
a string. -/
inductive FormControl where
  | checkboxGroup (checked : List String)
  | valueControl (value : String)
deriving DecidableEq

/-- Embeds the per-control filled check of the submit handler: a checkbox
group needs at least one checked box; any other control needs a value
that is non-blank after trimming. -/
def controlFilled : FormControl → Bool
  | .checkboxGroup checked => decide (checked ≠ [])
  | .valueControl v => decide (jsTrim v ≠ "")

/-- Embeds the per-control payload entry: a checkbox group contributes
the array of checked values, any other control its trimmed value. -/
def controlValue : FormControl → JValue
  | .checkboxGroup checked => .arr checked
  | .valueControl v => .str (jsTrim v)

/-- Embeds the multi-field form submit handler of the static client: the
JSON object (as an association list keyed by field name) is sent only
when every control is filled. -/
def multiFieldSubmit (inputs : List (String × FormControl)) :
    Option (List (String × JValue)) :=
  if inputs.all (fun p => controlFilled p.2) then
    some (inputs.map (fun p => (p.1, controlValue p.2)))
  else none

/-- Embeds the single-choice (radio) submit handler: the selected option
value is sent as-is, and nothing is sent with no selection. -/
def singleChoiceSubmit (selected : Option String) : Option String :=
  selected

/-- Embeds the single-field submit handler: the trimmed input value is
sent when it is non-blank. -/
def singleFieldSubmit (v : String) : Option String :=
  if jsTrim v ≠ "" then some (jsTrim v) else none

/-! ## Static client: session flag state and the sendMessage guard -/

/-- JS truthiness of the sessionId variable: null or the empty string is
falsy. -/
def sessionEstablished : Option String → Bool
  | none => false
  | some s => decide (s ≠ "")

/-- Module-level mutable flags of the static client script. -/
structure StaticClientState where
  sessionId : Option String
  conversationDone : Bool
deriving DecidableEq

/-- Embeds the guard at the top of the static client's sendMessage. -/
def staticSendGuard (st : StaticClientState) (text : String) : Bool :=
  sessionEstablished st.sessionId && !st.conversationDone && decide (jsTrim text ≠ "")

/-- Embeds the static client's sendMessage: the issued /chat request body,
or none when the guard fails. -/
def staticSendMessage (st : StaticClientState) (text : String) :
    Option (List (String × String)) :=
  if staticSendGuard st text then
    some [("session_id", st.sessionId.getD ""), ("message", text)]
  else none

/-- Embeds renderResponse's effect on the conversationDone flag: set on a
done response, left untouched otherwise. -/
def staticHandleResponse (st : StaticClientState) (resp : ChatResponse) :
    StaticClientState :=
  if resp.done then { st with conversationDone := true } else st

/-- Events the static client processes after bootstrap: an incoming
response rendered by renderResponse, or a user send attempt. -/
inductive StaticEvent where
  | recv (resp : ChatResponse)
  | send (text : String)

/-- One event of the static client: the next state, and whether the event
issued a /chat request. -/
def staticStep (st : StaticClientState) : StaticEvent → StaticClientState × Bool
  | .recv resp => (staticHandleResponse st resp, false)
  | .send text => (st, staticSendGuard st text)

/-- Whether any event of the list issues a /chat request, processing the
events in order from the given state. -/
def staticIssuesRequest (st : StaticClientState) : List StaticEvent → Bool
  | [] => false
  | e :: es => (staticStep st e).2 || staticIssuesRequest (staticStep st e).1 es

/-- Embeds the static client's session bootstrap request body. -/
def staticSessionRequestBody : List (String × String) :=
  [("study_id", "zyn")]

/-! ## React client: useChat state, handleResponse and the request guards -/

/-- Message roles of the chat transcript. -/
inductive Role where
  | user
  | assistant
deriving DecidableEq

/-- One transcript entry (id and timestamp omitted as presentation-only). -/
structure ChatMsg where
  role : Role
  content : String
deriving DecidableEq

/-- Embeds the useChat hook state. -/
structure ChatState where
  messages : List ChatMsg
  sessionId : Option String
  isLoading : Bool
  currentStep : String
  responseType : RespType
  fields : Option (List FieldDescriptor)
  options : Option (List String)
  isDone : Bool

/-- Embeds useChat's handleResponse: copies every response field into the
state and appends the assistant message when it is non-empty. -/
def handleResponse (st : ChatState) (resp : ChatResponse) : ChatState :=
  { st with
    sessionId := some resp.session_id
    currentStep := resp.step
    responseType := resp.type
    fields := resp.fields
    options := resp.options
    isDone := resp.done
    messages :=
      if resp.message ≠ "" then st.messages ++ [⟨.assistant, resp.message⟩]
      else st.messages }

/-- How the React client consumes a session-bootstrap response: initSession
hands it to handleResponse. -/
def processBootstrapResponse (st : ChatState) (resp : ChatResponse) : ChatState :=
  handleResponse st resp

/-- How the React client consumes a turn-call response: sendMessage and
submitForm hand it to handleResponse. -/
def processTurnResponse (st : ChatState) (resp : ChatResponse) : ChatState :=
  handleResponse st resp

/-- Embeds the guard at the top of useChat's sendMessage and submitForm. -/
def reactSendGuard (st : ChatState) : Bool :=
  sessionEstablished st.sessionId && !st.isLoading && !st.isDone

/-- Embeds the React client's sendMessage: the issued /chat request body,
or none when the guard fails. Note the guard never inspects the content. -/
def reactSendMessage (st : ChatState) (content : String) :
    Option (List (String × String)) :=
  if reactSendGuard st then
    some [("session_id", st.sessionId.getD ""), ("message", content)]
  else none

/-- Embeds ChatInput's handleSend: the trimmed input is sent only when it
is non-blank and the control is enabled. -/
def chatInputSend (input : String) (disabled : Bool) : Option String :=
  if jsTrim input ≠ "" ∧ disabled = false then some (jsTrim input) else none

/-! ## api.ts request bodies -/

/-- Embeds the createSession request body of lib/api.ts. -/
def createSessionBody (studyId : String) : List (String × String) :=
  [("study_id", studyId)]

/-- Embeds the sendChatMessage request body of lib/api.ts. -/
def sendChatMessageBody (sessionId message : String) : List (String × String) :=
  [("session_id", sessionId), ("message", message)]

/-- Embeds the STUDY_ID constant of the useChat hook. -/
def STUDY_ID : String := "zyn"

/-! ## ChatInterface.renderForm -/

/-- The widget renderForm can return (the JSX component it picks). -/
inductive FormWidget where
  | identityW
  | pinInputW
  | schedulingW (fields : List FieldDescriptor)
  | profileW (fields : List FieldDescriptor)
  | prescreenW (options : List String)
deriving DecidableEq

/-- JS truthiness of a nullable array combined with a length check:
non-null and non-empty. -/
def someNonempty {α : Type} : Option (List α) → Bool
  | none => false
  | some l => !l.isEmpty

/-- Embeds ChatInterface's renderForm: the branch cascade selecting which
form widget to show for the current response, in source order. A non-null
array is truthy in JS even when empty, hence the isSome tests on the
scheduling and prefix branches and the explicit length checks on the
generic branches. -/
def renderForm (isLoading : Bool) (responseType : RespType) (currentStep : String)
    (fields : Option (List FieldDescriptor)) (options : Option (List String)) :
    Option FormWidget :=
  if isLoading = true ∨ responseType ≠ .form then none
  else if currentStep = "consent_given" ∨ currentStep = "collecting_identity" then
    some .identityW
  else if currentStep = "awaiting_pin" then some .pinInputW
  else if currentStep = "scheduling" ∧ fields.isSome = true then
    some (.schedulingW (fields.getD []))
  else if jsStartsWith currentStep "collecting_group:" = true ∧ fields.isSome = true then
    some (.profileW (fields.getD []))
  else if jsStartsWith currentStep "prescreen:" = true ∧ options.isSome = true then
    some (.prescreenW (options.getD []))
  else if someNonempty fields = true then some (.profileW (fields.getD []))
  else if someNonempty options = true then some (.prescreenW (options.getD []))
  else none

/-- Embeds the showTextInput flag of ChatInterface: the free-text input
bar shows only for a text response while not done and not loading. -/
def showTextInput (responseType : RespType) (isDone isLoading : Bool) : Bool :=
  decide (responseType = .text) && !isDone && !isLoading

/-- Step labels the client dispatches on in renderForm, either as exact
values or as prefixes. -/
def clientStepLabel (s : String) : Bool :=
  decide (s = "consent_given") || decide (s = "collecting_identity") ||
  decide (s = "awaiting_pin") || decide (s = "scheduling") ||
  jsStartsWith s "collecting_group:" || jsStartsWith s "prescreen:"

/-- The generic tail of renderForm, reached when no step-specific branch
fires: non-empty fields give a profile form, else non-empty options give
a choice form, else nothing. -/
def genericRender (isLoading : Bool) (responseType : RespType)
    (fields : Option (List FieldDescriptor)) (options : Option (List String)) :
    Option FormWidget :=
  if isLoading = true ∨ responseType ≠ .form then none
  else if someNonempty fields = true then some (.profileW (fields.getD []))
  else if someNonempty options = true then some (.prescreenW (options.getD []))
  else none

/-- Node catalog declared by the specification, in declared order. -/
def catalogNodeIds : List String :=
  ["greeting", "consent", "identity_collection", "lead_lookup", "create_lead",
   "pin_auth", "profile_collection", "prescreen", "eligibility", "scheduling",
   "handoff"]

/-! ## SchedulingForm -/

/-- Embeds SchedulingForm's handleToggle on the selections record, read as
a total map from field name to its selected option list (absent keys read
as the empty list). Toggling removes a present option and appends an
absent one. -/
def toggleOption (sel : String → List String) (fieldName opt : String) :
    String → List String :=
  fun n =>
    if n = fieldName then
      if opt ∈ sel fieldName then (sel fieldName).filter (fun o => o ≠ opt)
      else sel fieldName ++ [opt]
    else sel n

/-- The empty selections record SchedulingForm starts from. -/
def emptySelections : String → List String := fun _ => []

/-- Folds a sequence of toggles over a selections record. -/
def applyToggles (sel : String → List String) :
    List (String × String) → (String → List String)
  | [] => sel
  | t :: ts => applyToggles (toggleOption sel t.1 t.2) ts

/-- A toggle the SchedulingForm UI can actually emit: its field is one of
the rendered fields and its option one of that field's declared options. -/
def validToggle (fields : List FieldDescriptor) (n opt : String) : Prop :=
  ∃ f ∈ fields, f.name = n ∧ opt ∈ f.options.getD []

/-- Embeds SchedulingForm's handleSubmit: the selections record is
submitted only when every rendered field has at least one selection. -/
def schedulingSubmit (fields : List FieldDescriptor)
    (sel : String → List String) : Option (String → List String) :=
  if fields.all (fun f => !(sel f.name).isEmpty) then some sel else none

/-! ## ProfileForm and IdentityForm submission -/

/-- Embeds ProfileForm's handleSubmit: the form data is submitted as-is
(raw values, keyed by field name) once every field's value is non-blank
after trimming. Absent keys read as the empty string. -/
def profileSubmit (fields : List FieldDescriptor) (formData : String → String) :
    Option (List (String × String)) :=
  if fields.all (fun f => decide (jsTrim (formData f.name) ≠ "")) then
    some (fields.map (fun f => (f.name, formData f.name)))
  else none

/-- Embeds IdentityForm's handleSubmit: the raw email and phone values are
submitted once both are non-empty. -/
def identitySubmit (email phone : String) : Option (List (String × String)) :=
  if email ≠ "" ∧ phone ≠ "" then some [("email", email), ("phone", phone)]
  else none

/-! ## init.sql: the rrc_sessions table -/

/-- One column of a table definition: name, SQL type, whether the DDL
writes NOT NULL, and whether the column is the primary key. -/
structure Column where
  name : String
  sqlType : String
  notNull : Bool
  primaryKey : Bool
deriving DecidableEq

/-- Embeds the rrc_sessions table of init.sql, column by column in DDL
order. The primary key column carries no explicit NOT NULL in the DDL. -/
def rrc_sessions : List Column :=
  [⟨"session_id", "VARCHAR(36)", false, true⟩,
   ⟨"study_id", "VARCHAR(40)", true, false⟩,
   ⟨"state", "JSONB", true, false⟩,
   ⟨"created_at", "TIMESTAMPTZ", true, false⟩,
   ⟨"updated_at", "TIMESTAMPTZ", true, false⟩]

/-! ## Eligibility engine, modelled from the specification

The rule evaluator itself is server-side code that is not part of this
repository checkout; only the specification describes it. The definitions
below follow the specification's words. -/

/-- Modelled from the spec: the effect of a rule, include-required or
exclude-if-matched. The engine implementation is not in this checkout. -/
inductive RuleEffect where
  | includeRequired
  | excludeIfMatched
deriving DecidableEq

/-- Modelled from the spec: the rule operators eq, neq, lt, lte, gt, gte,
in, not_in, range. -/
inductive RuleOp where
  | opEq
  | opNeq
  | opLt
  | opLte
  | opGt
  | opGte
  | opIn
  | opNotIn
  | opRange
deriving DecidableEq

/-- A profile or prescreen field value: a number or a string. -/
inductive FieldValue where
  | num (n : Int)
  | str (s : String)
deriving DecidableEq

/-- Modelled from the spec: one eligibility rule with its referenced
field, operator, comparison value(s), effect, and reason code. -/
structure EligRule where
  field : String
  op : RuleOp
  values : List FieldValue
  effect : RuleEffect
  reason : String
deriving DecidableEq

/-- Modelled from the spec: the engine output, eligible, ineligible with
a reason code, or undetermined naming the missing fields. -/
inductive EligOutcome where
  | eligible
  | ineligible (reason : String)
  | undetermined (missingFields : List String)
deriving DecidableEq

/-- Numeric comparison against the first comparison value; non-numeric
operands never compare. -/
def numCmp (f : Int → Int → Bool) (v : FieldValue) (vals : List FieldValue) : Bool :=
  match v, vals with
  | .num n, .num m :: _ => f n m
  | _, _ => false

/-- Modelled from the spec: whether a rule's predicate holds on a present
field value. -/
def ruleMatches (r : EligRule) (v : FieldValue) : Bool :=
  match r.op with
  | .opEq => match r.values with | w :: _ => decide (v = w) | [] => false
  | .opNeq => match r.values with | w :: _ => decide (v ≠ w) | [] => false
  | .opLt => numCmp (fun a b => decide (a < b)) v r.values
  | .opLte => numCmp (fun a b => decide (a ≤ b)) v r.values
  | .opGt => numCmp (fun a b => decide (b < a)) v r.values
  | .opGte => numCmp (fun a b => decide (b ≤ a)) v r.values
  | .opIn => decide (v ∈ r.values)
  | .opNotIn => decide (v ∉ r.values)
  | .opRange =>
    match r.values with
    | lo :: hi :: _ => numCmp (fun a b => decide (b ≤ a)) v [lo] &&
        numCmp (fun a b => decide (a ≤ b)) v [hi]
    | _ => false

/-- Modelled from the spec: a rule is violated when its field is present
and either an include-required predicate fails or an exclude-if-matched
predicate matches; an absent field never counts as a violation. -/
def ruleViolated (vals : String → Option FieldValue) (r : EligRule) : Bool :=
  match vals r.field with
  | none => false
  | some v =>
    match r.effect with
    | .includeRequired => !ruleMatches r v
    | .excludeIfMatched => ruleMatches r v

/-- Modelled from the spec: the referenced fields absent from the input,
in declared rule order. -/
def missingFieldsOf (rules : List EligRule) (vals : String → Option FieldValue) :
    List String :=
  (rules.filter (fun r => (vals r.field).isNone)).map (fun r => r.field)

/-- Modelled from the spec: evaluate the ordered rule list over the merged
profile and prescreen answers. The first violated rule in declared order
gives ineligible with its reason; otherwise an absent referenced field
gives undetermined naming the missing fields; otherwise eligible. -/
def evaluateEligibility (rules : List EligRule) (vals : String → Option FieldValue) :
    EligOutcome :=
  match rules.find? (ruleViolated vals) with
  | some r => .ineligible r.reason
  | none =>
    if (missingFieldsOf rules vals).isEmpty then .eligible
    else .undetermined (missingFieldsOf rules vals)

/-- The claim's reading of a satisfied include-required rule: the field is
present and the predicate holds; exclude rules are vacuously satisfied. -/
def includeSatisfied (vals : String → Option FieldValue) (r : EligRule) : Bool :=
  match r.effect with
  | .includeRequired =>
    match vals r.field with
    | some v => ruleMatches r v
    | none => false
  | .excludeIfMatched => true

/-- The claim's reading of a matching exclude-if-matched rule: the field
is present and the predicate holds; include rules never count. -/
def excludeMatched (vals : String → Option FieldValue) (r : EligRule) : Bool :=
  match r.effect with
  | .excludeIfMatched =>
    match vals r.field with
    | some v => ruleMatches r v
    | none => false
  | .includeRequired => false

/-- Demonstration rule list: a single exclude rule on an absent field. -/
def demoExcludeRules : List EligRule :=
  [⟨"age", .opEq, [.num 18], .excludeIfMatched, "age_excluded"⟩]

/-- Demonstration input with every field absent. -/
def demoEmptyVals : String → Option FieldValue := fun _ => none

/-- Demonstration rule list for the witness: one exclude rule that the
input matches. -/
def demoMatchRules : List EligRule :=
  [⟨"age", .opLt, [.num 21], .excludeIfMatched, "too_young"⟩]

/-- Demonstration input for the witness: an age the exclude rule matches. -/
def demoMatchVals : String → Option FieldValue :=
  fun f => if f = "age" then some (.num 18) else none

/-- The selection-state invariant of the SchedulingForm: every field's
selection list is duplicate-free and contains only options the UI could
have toggled for that field name. -/
def selInvariant (fields : List FieldDescriptor) (sel : String → List String) : Prop :=
  ∀ n, (sel n).Nodup ∧ ∀ o ∈ sel n, validToggle fields n o

instance (fields : List FieldDescriptor) (n opt : String) :
    Decidable (validToggle fields n opt) := by
  unfold validToggle
  infer_instance

/-- Demonstration scheduling field for the witness. -/
def demoSchedFields : List FieldDescriptor :=
  [⟨"preferred_days", "multi_select", "Preferred days", some ["Mon", "Tue", "Wed"]⟩]

/-- Demonstration toggle sequence for the witness: the third toggle
deselects the first. -/
def demoToggles : List (String × String) :=
  [("preferred_days", "Mon"), ("preferred_days", "Tue"), ("preferred_days", "Mon")]

end RRC

namespace RRC

/-! ## Lemmas about digit filtering and formatPhone -/

theorem mem_digitsOf_isDigit {l : List Char} {c : Char} (hc : c ∈ digitsOf l) :
    c.isDigit = true :=
  List.of_mem_filter hc

theorem digitsOf_eq_self {l : List Char} (h : ∀ c ∈ l, c.isDigit = true) :
    digitsOf l = l :=
  List.filter_eq_self.mpr h

theorem digitsOf_append (a b : List Char) :
    digitsOf (a ++ b) = digitsOf a ++ digitsOf b :=
  List.filter_append a b

theorem digitsOf_dash : digitsOf ['-'] = [] := by decide

theorem digitsOf_take_digitsOf (l : List Char) (n : Nat) :
    digitsOf ((digitsOf l).take n) = (digitsOf l).take n :=
  digitsOf_eq_self fun _ hc =>
    mem_digitsOf_isDigit (List.take_subset n (digitsOf l) hc)

theorem digitsOf_drop_digitsOf (l : List Char) (n : Nat) :
    digitsOf ((digitsOf l).drop n) = (digitsOf l).drop n :=
  digitsOf_eq_self fun _ hc =>
    mem_digitsOf_isDigit (List.drop_subset n (digitsOf l) hc)

theorem digitsOf_take_drop_digitsOf (l : List Char) (n m : Nat) :
    digitsOf (((digitsOf l).drop n).take m) = ((digitsOf l).drop n).take m :=
  digitsOf_eq_self fun _ hc =>
    mem_digitsOf_isDigit (List.drop_subset n (digitsOf l)
      (List.take_subset m _ hc))

theorem digitsOf_formatPhoneL (s : List Char) :
    digitsOf (formatPhoneL s) = (digitsOf s).take 10 := by
  unfold formatPhoneL
  by_cases h3 : (digitsOf s).length ≤ 3
  · rw [if_pos h3, digitsOf_eq_self fun _ hc => mem_digitsOf_isDigit hc,
      List.take_of_length_le (le_trans h3 (by norm_num))]
  · rw [if_neg h3]
    by_cases h6 : (digitsOf s).length ≤ 6
    · rw [if_pos h6, digitsOf_append, digitsOf_append, digitsOf_dash,
        digitsOf_take_digitsOf, digitsOf_drop_digitsOf]
      rw [List.append_nil, List.take_append_drop,
        List.take_of_length_le (le_trans h6 (by norm_num))]
    · rw [if_neg h6, digitsOf_append, digitsOf_append, digitsOf_append,
        digitsOf_append, digitsOf_dash, digitsOf_take_digitsOf,
        digitsOf_take_drop_digitsOf, digitsOf_take_drop_digitsOf]
      have h10 : (digitsOf s).take 10 =
          (digitsOf s).take 3 ++ ((digitsOf s).drop 3).take 7 := by
        exact List.take_add _ 3 7
      rw [h10]
      have h7 : ((digitsOf s).drop 3).take 7 =
          ((digitsOf s).drop 3).take 3 ++ (((digitsOf s).drop 3).drop 3).take 4 := by
        exact List.take_add _ 3 4
      rw [h7, List.drop_drop]
      simp

theorem formatPhoneL_congr {s t : List Char} (h : digitsOf s = digitsOf t) :
    formatPhoneL s = formatPhoneL t := by
  unfold formatPhoneL
  rw [h]

theorem formatPhoneL_take10 (s : List Char) :
    formatPhoneL ((digitsOf s).take 10) = formatPhoneL s := by
  by_cases hle : (digitsOf s).length ≤ 10
  · rw [List.take_of_length_le hle]
    exact formatPhoneL_congr (digitsOf_eq_self fun _ hc => mem_digitsOf_isDigit hc)
  · have hgt : 10 < (digitsOf s).length := Nat.lt_of_not_le hle
    have hd : digitsOf ((digitsOf s).take 10) = (digitsOf s).take 10 :=
      digitsOf_take_digitsOf s 10
    have hlen : ((digitsOf s).take 10).length = 10 := by
      rw [List.length_take]
      omega
    unfold formatPhoneL
    rw [hd, hlen]
    rw [if_neg (by norm_num), if_neg (by norm_num),
      if_neg (by omega), if_neg (by omega)]
    rw [List.take_take, List.drop_take, List.take_take, List.drop_take,
      List.take_take]
    norm_num

/-! ## Claim theorems -/

/-- C10: the identity form's formatPhone is idempotent, its output keeps
at most the first 10 digits of the input (the output is determined by the
first 10 digits, and its digit content is exactly those digits), and with
more than six digits the output is formatted as the dash-separated groups
XXX-XXX-XXXX, discarding any digits beyond the tenth. -/
theorem C10_formatPhone_idempotent_take10 (s : String) :
    formatPhone (formatPhone s) = formatPhone s ∧
    formatPhone s = formatPhone (String.mk ((digitsOf s.data).take 10)) ∧
    digitsOf (formatPhone s).data = (digitsOf s.data).take 10 ∧
    (6 < (digitsOf s.data).length →
      (formatPhone s).data =
        (digitsOf s.data).take 3 ++ ['-'] ++ ((digitsOf s.data).drop 3).take 3 ++
          ['-'] ++ ((digitsOf s.data).drop 6).take 4) := by
  have hmk : ∀ l : List Char, (String.mk l).data = l := fun l => rfl
  refine ⟨?_, ?_, ?_, ?_⟩
  · show String.mk (formatPhoneL (String.mk (formatPhoneL s.data)).data) =
      String.mk (formatPhoneL s.data)
    rw [hmk]
    have h1 : digitsOf (formatPhoneL s.data) =
        digitsOf ((digitsOf s.data).take 10) := by
      rw [digitsOf_formatPhoneL, digitsOf_take_digitsOf]
    rw [formatPhoneL_congr h1, formatPhoneL_take10]
  · show String.mk (formatPhoneL s.data) =
      String.mk (formatPhoneL (String.mk ((digitsOf s.data).take 10)).data)
    rw [hmk, formatPhoneL_take10]
  · show digitsOf (String.mk (formatPhoneL s.data)).data = (digitsOf s.data).take 10
    rw [hmk, digitsOf_formatPhoneL]
  · intro h6
    show (String.mk (formatPhoneL s.data)).data = _
    rw [hmk]
    unfold formatPhoneL
    rw [if_neg (by omega), if_neg (by omega)]

/-- Witness for C10 at a concrete 13-digit input: the over-length digits
are discarded and the output takes the XXX-XXX-XXXX shape. -/
theorem C10_formatPhone_witness :
    6 < (digitsOf ("9195550100123" : String).data).length ∧
    (formatPhone "9195550100123").data =
      (digitsOf ("9195550100123" : String).data).take 3 ++ ['-'] ++
        ((digitsOf ("9195550100123" : String).data).drop 3).take 3 ++ ['-'] ++
        ((digitsOf ("9195550100123" : String).data).drop 6).take 4 :=
  ⟨by decide, (C10_formatPhone_idempotent_take10 "9195550100123").2.2.2 (by decide)⟩

/-- C1 counterexample: the ChatResponse interface carries a session_id
key that the claimed response shape does not list, so the response does
not have exactly the claimed shape. -/
theorem C1_counterexample :
    "session_id" ∈ chatResponseKeys ∧ "session_id" ∉ specResponseKeys := by
  decide

/-- C1 (amended): every turn-call and session-bootstrap response has
exactly the shape with keys session_id, step, message, type,
field/fields/options, and done, where type is one of text, form, end,
done is a boolean, and each fields entry is a descriptor with keys name,
type, label and optional options. -/
theorem C1_response_shape :
    chatResponseKeys.Perm ("session_id" :: specResponseKeys) ∧
    fieldDescriptorKeys = ["name", "type", "label", "options"] ∧
    (∀ t : RespType, t = .text ∨ t = .form ∨ t = .stop) ∧
    (∀ r : ChatResponse, r.done = true ∨ r.done = false) := by
  refine ⟨by decide, rfl, ?_, ?_⟩
  · intro t
    cases t
    · exact Or.inl rfl
    · exact Or.inr (Or.inl rfl)
    · exact Or.inr (Or.inr rfl)
  · intro r
    cases h : r.done
    · exact Or.inr rfl
    · exact Or.inl rfl

/-- C6: the persisted session table holds exactly the columns session_id
(primary key), study_id (not null), state, created_at and updated_at, and
no version-token column of any kind. -/
theorem C6_session_schema :
    rrc_sessions.map Column.name =
      ["session_id", "study_id", "state", "created_at", "updated_at"] ∧
    (rrc_sessions.filter (fun c => c.primaryKey)).map Column.name =
      ["session_id"] ∧
    (rrc_sessions.filter (fun c => c.name = "study_id")).map Column.notNull =
      [true] ∧
    "version" ∉ rrc_sessions.map Column.name ∧
    "version_token" ∉ rrc_sessions.map Column.name ∧
    "etag" ∉ rrc_sessions.map Column.name := by
  decide

/-- C7: both clients issue the session-bootstrap request with exactly one
key, study_id, valued by the constant zyn, and the React client consumes
the bootstrap response through the very same handler as turn-call
responses. -/
theorem C7_bootstrap_request :
    createSessionBody STUDY_ID = [("study_id", "zyn")] ∧
    (createSessionBody STUDY_ID).map Prod.fst = ["study_id"] ∧
    staticSessionRequestBody = createSessionBody STUDY_ID ∧
    (∀ st resp, processBootstrapResponse st resp = processTurnResponse st resp) :=
  ⟨rfl, rfl, rfl, fun _ _ => rfl⟩

/-- C2 counterexample: the React ProfileForm is a multi-field widget, yet
it submits the raw entered value, not the trimmed one — a field holding
a value with surrounding spaces is sent untrimmed. -/
theorem C2_counterexample :
    profileSubmit [⟨"age", "number", "Age", none⟩] (fun _ => " 42 ") =
      some [("age", " 42 ")] ∧
    jsTrim " 42 " = "42" ∧ (" 42 " : String) ≠ jsTrim " 42 " := by
  refine ⟨by decide, by decide, by decide⟩

/-- C2 (amended): a single-field widget sends the trimmed input value and
a single-choice widget the selected option; the static client's
multi-field widget sends a JSON object keyed by field name in which a
checkbox-group field maps to the array of its checked option values and
every other field maps to its trimmed string value; the React profile
form also sends an object keyed by field name but with the raw entered
values, gated on every value being non-blank after trimming. -/
theorem C2_submission_payloads :
    (∀ inputs payload, multiFieldSubmit inputs = some payload →
        payload = inputs.map (fun p => (p.1, controlValue p.2))) ∧
    (∀ checked, controlValue (.checkboxGroup checked) = .arr checked) ∧
    (∀ v, controlValue (.valueControl v) = .str (jsTrim v)) ∧
    (∀ sel, singleChoiceSubmit sel = sel) ∧
    (∀ v m, singleFieldSubmit v = some m → m = jsTrim v) ∧
    (∀ fields fd payload, profileSubmit fields fd = some payload →
        payload = fields.map (fun f => (f.name, fd f.name)) ∧
        fields.all (fun f => decide (jsTrim (fd f.name) ≠ "")) = true) := by
  refine ⟨?_, fun _ => rfl, fun _ => rfl, fun _ => rfl, ?_, ?_⟩
  · intro inputs payload h
    unfold multiFieldSubmit at h
    split at h
    · exact (Option.some.inj h).symm
    · exact Option.noConfusion h
  · intro v m h
    unfold singleFieldSubmit at h
    split at h
    · exact (Option.some.inj h).symm
    · exact Option.noConfusion h
  · intro fields fd payload h
    unfold profileSubmit at h
    split at h
    next hc => exact ⟨(Option.some.inj h).symm, hc⟩
    next => exact Option.noConfusion h

/-- Witness for C2 at a concrete multi-field submission: a checkbox group
becomes an array and a text control its trimmed value. -/
theorem C2_submission_witness :
    multiFieldSubmit
        [("days", .checkboxGroup ["Mon"]), ("nickname", .valueControl " Jo ")] =
      some [("days", JValue.arr ["Mon"]), ("nickname", JValue.str "Jo")] ∧
    [("days", JValue.arr ["Mon"]), ("nickname", JValue.str "Jo")] =
      ([("days", FormControl.checkboxGroup ["Mon"]),
        ("nickname", FormControl.valueControl " Jo ")].map
        (fun p => (p.1, controlValue p.2))) :=
  ⟨by decide, C2_submission_payloads.1 _ _ (by decide)⟩

/-- C9: when a form-typed response has neither usable fields nor options
and its step is none of the specially dispatched ones, renderForm shows
no widget, and the free-text input bar is hidden because it shows only
for text-typed responses. -/
theorem C9_no_input_control (l d : Bool) (s : String)
    (fs : Option (List FieldDescriptor)) (os : Option (List String))
    (h1 : s ≠ "consent_given") (h2 : s ≠ "collecting_identity")
    (h3 : s ≠ "awaiting_pin") (h4 : s ≠ "scheduling")
    (h5 : jsStartsWith s "collecting_group:" = false)
    (h6 : jsStartsWith s "prescreen:" = false)
    (h7 : someNonempty fs = false) (h8 : someNonempty os = false) :
    renderForm l .form s fs os = none ∧ showTextInput .form d l = false := by
  constructor
  · unfold renderForm
    simp [h1, h2, h3, h4, h5, h6, h7, h8]
  · unfold showTextInput
    simp

/-- Witness for C9 at a concrete form response with no fields, no options
and an undispatched step. -/
theorem C9_no_input_control_witness :
    renderForm false .form "handoff" none none = none ∧
    showTextInput .form false false = false :=
  C9_no_input_control false false "handoff" none none (by decide) (by decide)
    (by decide) (by decide) (by decide) (by decide) (by decide) (by decide)

/-- C8 counterexample: the React client's sendMessage never inspects the
message text, so with a session established, not loading and not done it
issues a /chat request even for a whitespace-only message whose trimmed
text is empty. -/
theorem C8_counterexample :
    reactSendMessage
        ⟨[], some "abc123", false, "collecting_identity", .form, none, none, false⟩
        "   " =
      some [("session_id", "abc123"), ("message", "   ")] ∧
    jsTrim "   " = "" := by
  refine ⟨by decide, by decide⟩

/-- C8 (amended): the static client issues a /chat request iff a session
is established, no done response has been handled, and the trimmed text
is non-empty; the React client's sendMessage issues a request iff a
session is established, no request is in flight, and no done response has
been handled — its empty-text guard lives in ChatInput, which only ever
sends trimmed non-empty input; and in the static client, once the done
flag is set no later event sequence issues a request. -/
theorem C8_request_guards :
    (∀ st text, (staticSendMessage st text).isSome = true ↔
        (sessionEstablished st.sessionId = true ∧ st.conversationDone = false ∧
          jsTrim text ≠ "")) ∧
    (∀ st content, (reactSendMessage st content).isSome = true ↔
        (sessionEstablished st.sessionId = true ∧ st.isLoading = false ∧
          st.isDone = false)) ∧
    (∀ v d m, chatInputSend v d = some m →
        m = jsTrim v ∧ jsTrim v ≠ "" ∧ d = false) ∧
    (∀ st evs, st.conversationDone = true → staticIssuesRequest st evs = false) := by
  refine ⟨?_, ?_, ?_, ?_⟩
  · intro st text
    have hs : (staticSendMessage st text).isSome = staticSendGuard st text := by
      unfold staticSendMessage
      split
      next h => simp [h]
      next h =>
        rw [Bool.not_eq_true] at h
        simp [h]
    rw [hs]
    simp only [staticSendGuard, Bool.and_eq_true, Bool.not_eq_true',
      decide_eq_true_eq]
    tauto
  · intro st content
    have hs : (reactSendMessage st content).isSome = reactSendGuard st := by
      unfold reactSendMessage
      split
      next h => simp [h]
      next h =>
        rw [Bool.not_eq_true] at h
        simp [h]
    rw [hs]
    simp only [reactSendGuard, Bool.and_eq_true, Bool.not_eq_true']
    tauto
  · intro v d m h
    unfold chatInputSend at h
    split at h
    next hc => exact ⟨(Option.some.inj h).symm, hc.1, hc.2⟩
    next => exact Option.noConfusion h
  · intro st evs
    induction evs generalizing st with
    | nil => intro _; rfl
    | cons e es ih =>
      intro h
      cases e with
      | recv resp =>
        have hd : (staticHandleResponse st resp).conversationDone = true := by
          unfold staticHandleResponse
          split <;> simp [h]
        simp only [staticIssuesRequest, staticStep, Bool.false_or]
        exact ih _ hd
      | send text =>
        have hg : staticSendGuard st text = false := by
          simp [staticSendGuard, h]
        simp only [staticIssuesRequest, staticStep, hg, Bool.false_or]
        exact ih _ h

/-- Witness for C8: from a done state no event sequence issues a request,
and from a live state a non-blank send does issue one. -/
theorem C8_request_guards_witness :
    staticIssuesRequest ⟨some "abc", true⟩
      [.send "hello", .recv ⟨"s1", "bye", .stop, "handoff", none, none, none, true⟩,
       .send "again"] = false ∧
    (staticSendMessage ⟨some "abc", false⟩ "hello").isSome = true :=
  ⟨C8_request_guards.2.2.2 _ _ rfl,
   (C8_request_guards.1 _ _).mpr ⟨by decide, rfl, by decide⟩⟩

/-- C3 counterexample: the client renders the identity form for the
post-turn step consent_given, a step value that is not one of the
declared catalog node ids, so the response step field does not range over
the declared node ids. -/
theorem C3_counterexample :
    renderForm false .form "consent_given" none none = some .identityW ∧
    "consent_given" ∉ catalogNodeIds := by
  refine ⟨by decide, by decide⟩

/-- C3 (amended): the post-turn step labels the client dispatches on are
consent_given, collecting_identity, awaiting_pin, scheduling and the
collecting_group:/prescreen: prefixed families; every other step value
receives only the generic field/option rendering, and of the declared
catalog node ids only scheduling is a dispatched step label. -/
theorem C3_client_step_labels (l : Bool) (rt : RespType) (s : String)
    (fs : Option (List FieldDescriptor)) (os : Option (List String))
    (h : clientStepLabel s = false) :
    renderForm l rt s fs os = genericRender l rt fs os ∧
    catalogNodeIds.filter clientStepLabel = ["scheduling"] := by
  constructor
  · simp only [clientStepLabel, Bool.or_eq_false_iff, decide_eq_false_iff_not] at h
    obtain ⟨⟨⟨⟨⟨h1, h2⟩, h3⟩, h4⟩, h5⟩, h6⟩ := h
    unfold renderForm genericRender
    simp [h1, h2, h3, h4, h5, h6]
  · decide

/-- Witness for C3 at the catalog node id greeting, which is not a
dispatched step label. -/
theorem C3_client_step_labels_witness :
    renderForm false .form "greeting" (some [⟨"age", "number", "Age", none⟩]) none =
      genericRender false .form (some [⟨"age", "number", "Age", none⟩]) none ∧
    catalogNodeIds.filter clientStepLabel = ["scheduling"] :=
  C3_client_step_labels false .form "greeting" _ _ (by decide)

/-! ## Lemmas for the SchedulingForm selection invariant -/

theorem emptySelections_invariant (fields : List FieldDescriptor) :
    selInvariant fields emptySelections :=
  fun _ => ⟨List.nodup_nil, fun _ ho => absurd ho (List.not_mem_nil _)⟩

theorem toggleOption_preserves (fields : List FieldDescriptor)
    (sel : String → List String) (n opt : String)
    (hsel : selInvariant fields sel) (ht : validToggle fields n opt) :
    selInvariant fields (toggleOption sel n opt) := by
  intro m
  unfold toggleOption
  by_cases hm : m = n
  · subst hm
    rw [if_pos rfl]
    by_cases hmem : opt ∈ sel m
    · rw [if_pos hmem]
      refine ⟨(hsel m).1.filter _, ?_⟩
      intro o ho
      exact (hsel m).2 o (List.mem_of_mem_filter ho)
    · rw [if_neg hmem]
      constructor
      · rw [List.nodup_append]
        refine ⟨(hsel m).1, List.nodup_singleton _, ?_⟩
        intro x hx hx2
        rw [List.mem_singleton] at hx2
        subst hx2
        exact hmem hx
      · intro o ho
        rcases List.mem_append.mp ho with h | h
        · exact (hsel m).2 o h
        · rw [List.mem_singleton] at h
          subst h
          exact ht
  · rw [if_neg hm]
    exact hsel m

theorem applyToggles_preserves (fields : List FieldDescriptor)
    (ts : List (String × String)) :
    ∀ sel, selInvariant fields sel →
      (∀ t ∈ ts, validToggle fields t.1 t.2) →
      selInvariant fields (applyToggles sel ts) := by
  induction ts with
  | nil => intro sel h _; exact h
  | cons t ts ih =>
    intro sel h hts
    unfold applyToggles
    exact ih _ (toggleOption_preserves fields sel t.1 t.2 h
        (hts t (List.mem_cons_self t ts)))
      (fun u hu => hts u (List.mem_cons_of_mem t hu))

/-- C5: for a scheduling response with a fields list the client renders
the multi-select SchedulingForm; every toggle sequence the UI can produce
keeps each field's selection duplicate-free and drawn from that field's
declared options; and the payload is submitted only when every rendered
field has a non-empty selection. -/
theorem C5_scheduling_selection (fields : List FieldDescriptor)
    (ts : List (String × String))
    (hts : ∀ t ∈ ts, validToggle fields t.1 t.2) :
    selInvariant fields (applyToggles emptySelections ts) ∧
    (∀ fs os, renderForm false .form "scheduling" (some fs) os =
        some (.schedulingW fs)) ∧
    (∀ sel out, schedulingSubmit fields sel = some out →
        out = sel ∧ fields.all (fun f => !(sel f.name).isEmpty) = true) := by
  refine ⟨applyToggles_preserves fields ts emptySelections
      (emptySelections_invariant fields) hts, ?_, ?_⟩
  · intro fs os
    rfl
  · intro sel out h
    unfold schedulingSubmit at h
    split at h
    next hc => exact ⟨(Option.some.inj h).symm, hc⟩
    next => exact Option.noConfusion h

/-- Witness for C5 at a concrete toggle sequence where the third toggle
deselects the first option again. -/
theorem C5_scheduling_selection_witness :
    selInvariant demoSchedFields (applyToggles emptySelections demoToggles) ∧
    (∀ fs os, renderForm false .form "scheduling" (some fs) os =
        some (.schedulingW fs)) ∧
    (∀ sel out, schedulingSubmit demoSchedFields sel = some out →
        out = sel ∧ demoSchedFields.all (fun f => !(sel f.name).isEmpty) = true) :=
  C5_scheduling_selection demoSchedFields demoToggles (by decide)

/-! ## Lemmas for the eligibility evaluator -/

theorem missingFieldsOf_eq_nil_iff (rules : List EligRule)
    (vals : String → Option FieldValue) :
    missingFieldsOf rules vals = [] ↔
      rules.all (fun r => (vals r.field).isSome) = true := by
  unfold missingFieldsOf
  rw [List.map_eq_nil_iff, List.filter_eq_nil_iff, List.all_eq_true]
  constructor
  · intro h r hr
    have hh := h r hr
    cases hv : vals r.field <;> simp_all
  · intro h r hr
    have hh := h r hr
    cases hv : vals r.field <;> simp_all

theorem ok_of_not_violated {vals : String → Option FieldValue} {r : EligRule}
    (hp : (vals r.field).isSome = true) (h : ruleViolated vals r = false) :
    includeSatisfied vals r = true ∧ excludeMatched vals r = false := by
  unfold ruleViolated at h
  unfold includeSatisfied excludeMatched
  cases heff : r.effect <;> cases hv : vals r.field <;> simp_all

theorem violated_elim {vals : String → Option FieldValue} {r : EligRule}
    (h : ruleViolated vals r = true) :
    (vals r.field).isSome = true ∧
      (includeSatisfied vals r = false ∨ excludeMatched vals r = true) := by
  unfold ruleViolated at h
  unfold includeSatisfied excludeMatched
  cases heff : r.effect <;> cases hv : vals r.field <;> simp_all

theorem violated_eq_excludeMatched {vals : String → Option FieldValue}
    {r : EligRule} (hi : includeSatisfied vals r = true) :
    ruleViolated vals r = excludeMatched vals r := by
  unfold includeSatisfied at hi
  unfold ruleViolated excludeMatched
  cases heff : r.effect <;> cases hv : vals r.field <;> simp_all

theorem find?_congr_pred {α : Type} (p q : α → Bool) (l : List α)
    (h : ∀ a ∈ l, p a = q a) : l.find? p = l.find? q := by
  induction l with
  | nil => rfl
  | cons a l ih =>
    simp only [List.find?]
    rw [h a (List.mem_cons_self a l)]
    cases q a
    · exact ih fun b hb => h b (List.mem_cons_of_mem a hb)
    · rfl

/-- C4 counterexample to the claimed biconditional: with a single exclude
rule on an absent field, every include-required rule is (vacuously)
satisfied and no exclude rule matches, yet the outcome is undetermined
naming the missing field, not eligible. -/
theorem C4_counterexample :
    demoExcludeRules.all (includeSatisfied demoEmptyVals) = true ∧
    demoExcludeRules.any (excludeMatched demoEmptyVals) = false ∧
    evaluateEligibility demoExcludeRules demoEmptyVals =
      .undetermined ["age"] ∧
    EligOutcome.undetermined ["age"] ≠ .eligible := by
  refine ⟨by decide, by decide, by decide, by decide⟩

/-- C4 (amended, over the spec-modelled evaluator): the outcome is
eligible iff every referenced field is present, every include-required
rule is satisfied and no exclude-if-matched rule matches; an ineligible
outcome carries the reason of the first violated rule in declared order,
which is the first matching exclude rule whenever the include rules are
all satisfied; a rule set with no violated rule but an absent referenced
field yields undetermined naming the missing fields; and evaluation is a
pure function of its inputs, so identical inputs yield identical outcome
and reason. -/
theorem C4_eligibility_evaluation (rules : List EligRule)
    (vals : String → Option FieldValue) :
    (evaluateEligibility rules vals = .eligible ↔
      (rules.all (fun r => (vals r.field).isSome) = true ∧
       rules.all (includeSatisfied vals) = true ∧
       rules.all (fun r => !excludeMatched vals r) = true)) ∧
    (∀ rsn, evaluateEligibility rules vals = .ineligible rsn →
      ∃ r, rules.find? (ruleViolated vals) = some r ∧ r.reason = rsn) ∧
    (rules.all (includeSatisfied vals) = true →
      rules.find? (ruleViolated vals) = rules.find? (excludeMatched vals)) ∧
    (rules.find? (ruleViolated vals) = none →
      missingFieldsOf rules vals ≠ [] →
      evaluateEligibility rules vals =
        .undetermined (missingFieldsOf rules vals)) ∧
    (∀ vals2, (∀ f, vals f = vals2 f) →
      evaluateEligibility rules vals = evaluateEligibility rules vals2) := by
  refine ⟨?_, ?_, ?_, ?_, ?_⟩
  · unfold evaluateEligibility
    cases hfind : rules.find? (ruleViolated vals) with
    | some r =>
      constructor
      · intro h
        exact absurd h (by simp)
      · rintro ⟨hall, hinc, hexc⟩
        exfalso
        have hr : r ∈ rules := List.mem_of_find?_eq_some hfind
        have hv : ruleViolated vals r = true := List.find?_some hfind
        rcases (violated_elim hv).2 with h | h
        · have := List.all_eq_true.mp hinc r hr
          simp_all
        · have := List.all_eq_true.mp hexc r hr
          simp_all
    | none =>
      by_cases hm : missingFieldsOf rules vals = []
      · have hie : (missingFieldsOf rules vals).isEmpty = true := by
          rw [hm]; rfl
        rw [if_pos hie]
        have hall := (missingFieldsOf_eq_nil_iff rules vals).mp hm
        constructor
        · intro _
          refine ⟨hall, ?_, ?_⟩
          · rw [List.all_eq_true]
            intro r hr
            have hp := List.all_eq_true.mp hall r hr
            have hnv : ruleViolated vals r = false := by
              have := List.find?_eq_none.mp hfind r hr
              exact Bool.not_eq_true _ ▸ (by simpa using this)
            exact (ok_of_not_violated hp hnv).1
          · rw [List.all_eq_true]
            intro r hr
            have hp := List.all_eq_true.mp hall r hr
            have hnv : ruleViolated vals r = false := by
              have := List.find?_eq_none.mp hfind r hr
              exact Bool.not_eq_true _ ▸ (by simpa using this)
            simp [(ok_of_not_violated hp hnv).2]
        · intro _
          rfl
      · have hie : (missingFieldsOf rules vals).isEmpty = false := by
          cases hmf : missingFieldsOf rules vals
          · exact absurd hmf hm
          · rfl
        rw [hie]
        simp only [Bool.false_eq_true, if_false]
        constructor
        · intro h
          exact absurd h (by simp)
        · rintro ⟨hall, _, _⟩
          exact absurd ((missingFieldsOf_eq_nil_iff rules vals).mpr hall) hm
  · intro rsn h
    unfold evaluateEligibility at h
    cases hfind : rules.find? (ruleViolated vals) with
    | some r =>
      rw [hfind] at h
      exact ⟨r, rfl, EligOutcome.ineligible.inj h⟩
    | none =>
      rw [hfind] at h
      have h2 : (if (missingFieldsOf rules vals).isEmpty then EligOutcome.eligible
          else EligOutcome.undetermined (missingFieldsOf rules vals)) =
          .ineligible rsn := h
      split at h2
      · exact EligOutcome.noConfusion h2
      · exact EligOutcome.noConfusion h2
  · intro hinc
    refine find?_congr_pred _ _ rules ?_
    intro r hr
    exact violated_eq_excludeMatched (List.all_eq_true.mp hinc r hr)
  · intro hfind hne
    unfold evaluateEligibility
    rw [hfind]
    have hie : (missingFieldsOf rules vals).isEmpty = false := by
      cases hmf : missingFieldsOf rules vals
      · exact absurd hmf hne
      · rfl
    rw [hie]
    simp
  · intro vals2 h
    rw [funext h]

/-- Witness for C4 at a concrete rule set and input where an exclude rule
matches: the ineligible reason is that of the first matching exclude
rule. -/
theorem C4_eligibility_witness :
    ∃ r, demoMatchRules.find? (ruleViolated demoMatchVals) = some r ∧
      r.reason = "too_young" :=
  (C4_eligibility_evaluation demoMatchRules demoMatchVals).2.1 "too_young"
    (by decide)

end RRC
